import Mathlib

/-!
Shallow embedding of `supabase_functions/_sync/functions_client.py`
(class `SyncFunctionsClient`) and verification of its specification.

Python dictionaries holding headers are modelled as lookup functions
`String → Option String` (`none` = key absent); an in-place `update` /
item assignment becomes a functional update.  Python exceptions become an
`Except PyError` result.  JSON values decoded by the external JSON codec
are modelled by the inductive `JValue`; an HTTP response carries, besides
its raw `content`, the field `jsonBody : Option JValue`, the outcome of
the JSON codec collaborator applied to its body (`none` = the body does
not parse, i.e. `response.json()` raises a decode error).  The HTTP
transport is a parameter `send : HttpRequest → Response`.
-/

namespace SupabaseFunctions

/-- A Python `Dict[str, str]` of headers, as a lookup function. -/
def Headers : Type := String → Option String

/-- The empty header dict `{}`. -/
def Headers.empty : Headers := fun _ => none

/-- Item assignment `h[k] = v` on a header dict. -/
def Headers.set (h : Headers) (k v : String) : Headers :=
  fun q => if q = k then some v else h q

/-- `h.update(kvs)`: write every pair of `kvs` into `h`, later pairs
winning on key collision (Python dict update semantics). -/
def Headers.updateMany (h : Headers) (kvs : List (String × String)) : Headers :=
  kvs.foldl (fun acc kv => Headers.set acc kv.1 kv.2) h

/-- A JSON value as decoded by the Python `json` codec (JSON `null`
decodes to Python `None`, modelled by `jNull`; numbers abstracted to
`Int`, which covers every value the claims touch). -/
inductive JValue : Type where
  | jNull : JValue
  | jBool : Bool → JValue
  | jNum : Int → JValue
  | jStr : String → JValue
  | jArr : List JValue → JValue
  | jObj : List (String × JValue) → JValue
deriving Repr

/-- Python truthiness of a decoded JSON value (`None`, `False`, `0`,
`""`, `[]`, `{}` are falsy). -/
def JValue.truthy : JValue → Bool
  | JValue.jNull => false
  | JValue.jBool b => b
  | JValue.jNum n => n != 0
  | JValue.jStr s => s != ""
  | JValue.jArr xs => !xs.isEmpty
  | JValue.jObj fs => !fs.isEmpty

/-- Association-list lookup with the *last* binding winning: this is the
dict a JSON object decodes to (duplicate keys: last occurrence wins), so
`dict.get(k)` is `lookupLast k fields`. -/
def lookupLast {α : Type} (k : String) (fields : List (String × α)) : Option α :=
  fields.foldl (fun acc p => if p.1 = k then some p.2 else acc) none

/-- Python truthiness of `headers.get(k)` (an `Option String`):
`None` and `""` are falsy. -/
def pyTruthyStrOpt : Option String → Bool
  | none => false
  | some s => s != ""

/-- The whitespace characters `str.strip()` removes (the ASCII ones:
space, tab, newline, carriage return, vertical tab, form feed). -/
def pyIsSpace (c : Char) : Bool :=
  c = ' ' || c = '\t' || c = '\n' || c = '\r' || c = '\x0b' || c = '\x0c'

/-- Python `str.lower()`, per-character lowercasing (agrees with Python
on ASCII input). -/
def pyLower (s : String) : String := String.mk (s.data.map Char.toLower)

/-- Python `str.strip()`: drop leading and trailing whitespace. -/
def pyStrip (s : String) : String :=
  String.mk (((s.data.dropWhile pyIsSpace).reverse.dropWhile pyIsSpace).reverse)

/-- `region.lower().strip()` from line 76 of the source. -/
def pyLowerStrip (s : String) : String := pyStrip (pyLower s)

/-- The value `invoke_options.get("region")` can hold: absent, a string,
or a non-string value (which the `isinstance(region, str)` guard on
line 75 rejects whether truthy or falsy). -/
inductive RegionVal : Type where
  | str : String → RegionVal
  | nonStr : RegionVal
deriving Repr

/-- The value `invoke_options.get("body")` can hold, split along the
`isinstance` tests of lines 79–81: absent (`None`), a Python `str`, a
Python `dict` (a JSON object), or any other JSON-encodable value. -/
inductive Body : Type where
  | noBody : Body
  | strBody : String → Body
  | dictBody : List (String × JValue) → Body
  | otherBody : JValue → Body
deriving Repr

/-- The `json=` argument handed to the transport on line 32 / 85:
`None` when no body was given, otherwise the body as a JSON value. -/
def Body.toJsonArg : Body → Option JValue
  | Body.noBody => none
  | Body.strBody s => some (JValue.jStr s)
  | Body.dictBody fs => some (JValue.jObj fs)
  | Body.otherBody v => some v

/-- The `invoke_options` dict: each field models `.get(...)` on the
corresponding key (`none` = key absent). -/
structure InvokeOptions : Type where
  headers : Option (List (String × String)) := none
  responseType : Option String := none
  region : Option RegionVal := none
  body : Body := Body.noBody

/-- Configuration recorded by the `SyncClient(...)` construction on
lines 16–23; the transport collaborator itself is external, so only the
arguments passed to it are modelled. -/
structure SyncClientConfig : Type where
  base_url : String
  headers : Headers
  verify : Bool
  timeout : Int
  follow_redirects : Bool
  http2 : Bool

/-- The state of a `SyncFunctionsClient` instance: its base `url`, the
shared mutable header dict `headers`, and the `_client` construction
record. -/
structure FunctionsClient : Type where
  url : String
  headers : Headers
  client : SyncClientConfig

/-- An HTTP response as seen through `httpx`: status code, response
headers, raw body bytes (`response.content`), and `jsonBody`, the result
of the JSON codec on the body (`none` = `response.json()` raises). -/
structure Response : Type where
  status_code : Nat
  headers : Headers
  content : String
  jsonBody : Option JValue

/-- The request handed to `self._client.request` on line 32. -/
structure HttpRequest : Type where
  method : String
  url : String
  headers : Headers
  json : Option JValue

/-- Python exceptions that can escape the methods of the client. -/
inductive PyError : Type where
  | functionsHttpError : JValue → PyError
  | functionsRelayError : Option JValue → PyError
  | jsonDecodeError : PyError
  | attributeError : PyError
deriving Repr

/-- The value `invoke` returns: a decoded JSON body or the raw bytes. -/
inductive InvokeResult : Type where
  | json : JValue → InvokeResult
  | raw : String → InvokeResult
deriving Repr

/-- The f-string on line 38; `exc.request.url!r` abbreviated to the URL
text itself (the claims only require that the message names the URL). -/
def genericErrorMessage (url : String) : String :=
  "An error occurred while requesting your edge function at " ++ url ++ "."

/-- Lines 33–41 of `_request`: `response.raise_for_status()` and the
`except HTTPError` handler.  On a 2xx status the response is returned.
Otherwise `FunctionsHttpError(response.json().get("error") or generic)`
is evaluated: a body that does not parse raises the decode error, a JSON
body that is not an object makes `.get` raise `AttributeError`, and
otherwise the `or` picks the truthy `error` field or the generic
message. -/
def SyncFunctionsClient.handleStatus (response : Response) (reqUrl : String) :
    Except PyError Response :=
  if 200 ≤ response.status_code ∧ response.status_code ≤ 299 then
    Except.ok response
  else
    match response.jsonBody with
    | none => Except.error PyError.jsonDecodeError
    | some j =>
      match j with
      | JValue.jObj fields =>
        match lookupLast "error" fields with
        | some v =>
          if v.truthy then Except.error (PyError.functionsHttpError v)
          else Except.error
            (PyError.functionsHttpError (JValue.jStr (genericErrorMessage reqUrl)))
        | none => Except.error
            (PyError.functionsHttpError (JValue.jStr (genericErrorMessage reqUrl)))
      | _ => Except.error PyError.attributeError

/-- Lines 43–52: `set_auth` writes `Authorization: Bearer {token}` into
the shared header dict. -/
def SyncFunctionsClient.set_auth (c : FunctionsClient) (token : String) :
    FunctionsClient :=
  { c with headers := Headers.set c.headers "Authorization" ("Bearer " ++ token) }

/-- Lines 67–82 of `invoke`: starting from `headers = self.headers`
(an *alias* of the shared dict), overlay `invoke_options["headers"]`,
then the `x-region` entry when the raw region string is truthy, a `str`,
and differs from `"any"`, then `Content-Type` according to the runtime type of the body.  The
result is both the header dict sent and the new shared dict of the
client. -/
def SyncFunctionsClient.invokeHeaders (base : Headers)
    (invoke_options : Option InvokeOptions) : Headers :=
  match invoke_options with
  | none => base
  | some o =>
    let h1 := Headers.updateMany base (o.headers.getD [])
    let h2 :=
      match o.region with
      | some (RegionVal.str s) =>
        if s ≠ "" ∧ s ≠ "any" then Headers.set h1 "x-region" (pyLowerStrip s) else h1
      | _ => h1
    match o.body with
    | Body.strBody _ => Headers.set h2 "Content-Type" "text/plain"
    | Body.dictBody _ => Headers.set h2 "Content-Type" "application/json"
    | _ => h2

/-- Line 72: `invoke_options.get("responseType", "text/plain")`
(`"text/plain"` also when `invoke_options is None`). -/
def SyncFunctionsClient.invokeResponseType (invoke_options : Option InvokeOptions) :
    String :=
  match invoke_options with
  | none => "text/plain"
  | some o => o.responseType.getD "text/plain"

/-- Line 78 / 68: the body extracted from the options (`None` when
`invoke_options is None`). -/
def SyncFunctionsClient.invokeBody (invoke_options : Option InvokeOptions) : Body :=
  match invoke_options with
  | none => Body.noBody
  | some o => o.body

/-- Lines 84–86: the `POST {self.url}/{function_name}` request built by
`invoke`, with the merged headers and the body as the `json=` argument. -/
def SyncFunctionsClient.buildRequest (c : FunctionsClient) (function_name : String)
    (invoke_options : Option InvokeOptions) : HttpRequest :=
  { method := "POST"
  , url := c.url ++ "/" ++ function_name
  , headers := SyncFunctionsClient.invokeHeaders c.headers invoke_options
  , json := (SyncFunctionsClient.invokeBody invoke_options).toJsonArg }

/-- Lines 54–96: the whole of `invoke`.  Returns the state of the client after
the call (its shared header dict was mutated in place by
`invokeHeaders`) together with the outcome: the `_request` status
handling, then the `x-relay-header` check raising
`FunctionsRelayError(response.json().get("error"))`, then the
`responseType` dispatch between `response.json()` and
`response.content`. -/
def SyncFunctionsClient.invoke (c : FunctionsClient) (send : HttpRequest → Response)
    (function_name : String) (invoke_options : Option InvokeOptions) :
    FunctionsClient × Except PyError InvokeResult :=
  let req := SyncFunctionsClient.buildRequest c function_name invoke_options
  let c' : FunctionsClient := { c with headers := req.headers }
  let response := send req
  (c',
    match SyncFunctionsClient.handleStatus response req.url with
    | Except.error e => Except.error e
    | Except.ok response =>
      let is_relay_error := response.headers "x-relay-header"
      if pyTruthyStrOpt is_relay_error ∧ is_relay_error = some "true" then
        match response.jsonBody with
        | none => Except.error PyError.jsonDecodeError
        | some j =>
          match j with
          | JValue.jObj fields =>
            Except.error (PyError.functionsRelayError (lookupLast "error" fields))
          | _ => Except.error PyError.attributeError
      else
        if SyncFunctionsClient.invokeResponseType invoke_options = "json" then
          match response.jsonBody with
          | none => Except.error PyError.jsonDecodeError
          | some v => Except.ok (InvokeResult.json v)
        else
          Except.ok (InvokeResult.raw response.content))

/-- The fixed `User-Agent` value of line 13, parameterised by the
package-level `__version__` string. -/
def defaultUserAgent (version : String) : String :=
  "supabase-py/functions-py v" ++ version

/-- Lines 10–23, `__init__`: store the url, build the shared header dict
`{"User-Agent": ..., **headers}` (caller-supplied entries override the
fixed one), and record the `SyncClient` construction with
`follow_redirects=True` and `http2=True`. -/
def SyncFunctionsClient.construct (version : String) (url : String)
    (headers : List (String × String)) (timeout : Int) (verify : Bool) :
    FunctionsClient :=
  let hs := Headers.updateMany
    (Headers.set Headers.empty "User-Agent" (defaultUserAgent version)) headers
  { url := url
  , headers := hs
  , client :=
    { base_url := url
    , headers := hs
    , verify := verify
    , timeout := timeout
    , follow_redirects := true
    , http2 := true } }

/-- One character of `json.dumps` string escaping: quote, backslash and
the common control characters get two-character escapes, everything else
passes through (the `\uXXXX` escapes for the remaining control and
non-ASCII characters are abstracted to the character itself; every image
has length at least 1, which is all the claims use). -/
def escapeChar (c : Char) : String :=
  if c = '"' then "\\\""
  else if c = '\\' then "\\\\"
  else if c = '\n' then "\\n"
  else if c = '\r' then "\\r"
  else if c = '\t' then "\\t"
  else String.singleton c

/-- `json.dumps` escaping of the characters of a string body. -/
def escapeChars : List Char → String
  | [] => ""
  | c :: cs => escapeChar c ++ escapeChars cs

/-- The JSON encoding of a Python string: quoted and escaped. -/
def encodeJsonString (s : String) : String :=
  "\"" ++ escapeChars s.data ++ "\""

mutual

/-- The JSON codec collaborator on the sending side: the wire text
`json.dumps` produces for the `json=` argument (httpx encodes the
argument with the standard codec before transmission). -/
def encodeJson : JValue → String
  | JValue.jNull => "null"
  | JValue.jBool true => "true"
  | JValue.jBool false => "false"
  | JValue.jNum n => toString n
  | JValue.jStr s => encodeJsonString s
  | JValue.jArr xs => "[" ++ encodeJsonList xs ++ "]"
  | JValue.jObj fs => "\x7b" ++ encodeJsonFields fs ++ "\x7d"

/-- Comma-separated encoding of the elements of a JSON array. -/
def encodeJsonList : List JValue → String
  | [] => ""
  | [x] => encodeJson x
  | x :: xs => encodeJson x ++ ", " ++ encodeJsonList xs

/-- Comma-separated encoding of the fields of a JSON object. -/
def encodeJsonFields : List (String × JValue) → String
  | [] => ""
  | [(k, v)] => encodeJsonString k ++ ": " ++ encodeJson v
  | (k, v) :: fs => encodeJsonString k ++ ": " ++ encodeJson v ++ ", " ++ encodeJsonFields fs

end

/-- The body bytes the transport puts on the wire for a request: nothing
when `json=None`, else the JSON encoding of the `json=` argument. -/
def HttpRequest.wireBody (r : HttpRequest) : Option String :=
  r.json.map encodeJson


/-! ## Concrete fixtures used by witnesses and counterexamples -/

/-- A concrete client: `SyncFunctionsClient("http://localhost:54321/functions/v1", {}, 5)`. -/
def testClient : FunctionsClient :=
  SyncFunctionsClient.construct "0.0.0" "http://localhost:54321/functions/v1" [] 5 true

/-- A status-500 response carrying `x-relay-header: true` and the body
`{"error": "boom"}`. -/
def relayResponse500 : Response :=
  { status_code := 500
  , headers := Headers.set Headers.empty "x-relay-header" "true"
  , content := "ignored"
  , jsonBody := some (JValue.jObj [("error", JValue.jStr "boom")]) }

/-- A status-200 response carrying `x-relay-header: true` and the body
`{"error": "bad-relay"}`. -/
def relayResponse200 : Response :=
  { status_code := 200
  , headers := Headers.set Headers.empty "x-relay-header" "true"
  , content := "ignored"
  , jsonBody := some (JValue.jObj [("error", JValue.jStr "bad-relay")]) }

/-- A status-500 response whose body is not valid JSON. -/
def badJsonResponse500 : Response :=
  { status_code := 500
  , headers := Headers.empty
  , content := "not json"
  , jsonBody := none }

/-- A status-500 response with the JSON body `{"error": "boom"}` and no
relay header. -/
def err500Response : Response :=
  { status_code := 500
  , headers := Headers.empty
  , content := "ignored"
  , jsonBody := some (JValue.jObj [("error", JValue.jStr "boom")]) }

/-- A plain success response with the JSON body `{"ok": true}`. -/
def okJsonResponse : Response :=
  { status_code := 200
  , headers := Headers.empty
  , content := "raw-bytes"
  , jsonBody := some (JValue.jObj [("ok", JValue.jBool true)]) }

/-- Invoke options carrying a per-call header overlay and a region. -/
def c3opts : InvokeOptions :=
  { headers := some [("X-Custom", "1")], region := some (RegionVal.str "us-east-1") }

/-- The per-call options do not themselves overlay header `k` (absent
options overlay nothing). -/
def noOverlayOf (k : String) : Option InvokeOptions → Prop
  | none => True
  | some o => ∀ p ∈ o.headers.getD [], p.1 ≠ k

/-- A sequence of `invoke` calls run one after the other on the same
client — each entry carries the transport, the function name and the
options of one call — returning the client state after the last call. -/
def runCalls (c : FunctionsClient) :
    List ((HttpRequest → Response) × String × Option InvokeOptions) → FunctionsClient
  | [] => c
  | call :: rest =>
    runCalls (SyncFunctionsClient.invoke c call.1 call.2.1 call.2.2).1 rest

/-- A concrete two-call sequence whose overlays never mention
`Authorization`: one call with a custom header, a region and a string
body, then one call without options. -/
def c7calls : List ((HttpRequest → Response) × String × Option InvokeOptions) :=
  [ (fun _ => okJsonResponse, "fnA",
      some { headers := some [("X-Other", "1")]
           , region := some (RegionVal.str "eu-west-2")
           , body := Body.strBody "x" })
  , (fun _ => okJsonResponse, "fnB", none) ]

/-! ## Helper lemmas -/

/-- Folding the last-binding-wins lookup step over a list distributes
over the initial accumulator. -/
theorem updateMany_foldl_accum (k : String) (kvs : List (String × String)) :
    ∀ acc : Option String,
      kvs.foldl (fun a p => if p.1 = k then some p.2 else a) acc
        = match kvs.foldl (fun a p => if p.1 = k then some p.2 else a) none with
          | some v => some v
          | none => acc := by
  induction kvs with
  | nil => intro acc; rfl
  | cons p kvs ih =>
    intro acc
    show kvs.foldl _ (if p.1 = k then some p.2 else acc) = _
    rw [ih (if p.1 = k then some p.2 else acc)]
    conv_rhs => rw [List.foldl_cons]
    rw [ih (if p.1 = k then some p.2 else none)]
    cases hfold : kvs.foldl (fun a p => if p.1 = k then some p.2 else a) none with
    | some v => simp
    | none => by_cases hp : p.1 = k <;> simp [hp]

/-- A dict after `update`: the overlaid pairs win (last occurrence
first), the base dict answers for untouched keys. -/
theorem Headers.updateMany_lookup (h : Headers) (kvs : List (String × String))
    (k : String) :
    Headers.updateMany h kvs k
      = match lookupLast k kvs with
        | some v => some v
        | none => h k := by
  induction kvs generalizing h with
  | nil => rfl
  | cons p kvs ih =>
    show Headers.updateMany (Headers.set h p.1 p.2) kvs k = _
    rw [ih (Headers.set h p.1 p.2)]
    rw [show lookupLast k (p :: kvs)
        = match lookupLast k kvs with
          | some v => some v
          | none => if p.1 = k then some p.2 else none from
      updateMany_foldl_accum k kvs (if p.1 = k then some p.2 else none)]
    cases lookupLast k kvs with
    | some v => simp
    | none =>
      by_cases hp : p.1 = k
      · simp [hp, Headers.set]
      · have hk : k ≠ p.1 := fun hkk => hp hkk.symm
        simp [hp, Headers.set, hk]

/-- `update` with pairs that never mention key `k` leaves `k` alone. -/
theorem Headers.updateMany_notMem (h : Headers) (kvs : List (String × String))
    (k : String) (hk : ∀ p ∈ kvs, p.1 ≠ k) : Headers.updateMany h kvs k = h k := by
  rw [Headers.updateMany_lookup]
  have : lookupLast k kvs = none := by
    show kvs.foldl _ none = none
    induction kvs with
    | nil => rfl
    | cons p kvs ih =>
      have hp : p.1 ≠ k := hk p (List.mem_cons_self p kvs)
      show kvs.foldl _ (if p.1 = k then some p.2 else none) = none
      rw [if_neg hp]
      exact ih (fun q hq => hk q (List.mem_cons_of_mem p hq))
  rw [this]

/-- The header merging of `invoke` does not disturb a key that the per-call
overlay never mentions and that is neither `x-region` nor `Content-Type`. -/
theorem invokeHeaders_preserves (base : Headers) (o : InvokeOptions) (k : String)
    (hk : ∀ p ∈ o.headers.getD [], p.1 ≠ k)
    (hx : k ≠ "x-region") (hct : k ≠ "Content-Type") :
    SyncFunctionsClient.invokeHeaders base (some o) k = base k := by
  have hbase := Headers.updateMany_notMem base (o.headers.getD []) k hk
  simp only [SyncFunctionsClient.invokeHeaders]
  rcases hr : o.region with _ | rv
  · simp only [hr]
    cases hb : o.body <;> simp [Headers.set, hct, hbase]
  · cases rv with
    | str s =>
      simp only [hr]
      split
      · cases hb : o.body <;> simp [Headers.set, hct, hx, hbase]
      · cases hb : o.body <;> simp [Headers.set, hct, hbase]
    | nonStr =>
      simp only [hr]
      cases hb : o.body <;> simp [Headers.set, hct, hbase]

/-- One `invoke` call leaves a header key alone in the client state when
the call does not overlay it and the key is neither `x-region` nor
`Content-Type`. -/
theorem invoke_state_preserves (c : FunctionsClient) (send : HttpRequest → Response)
    (fn : String) (opts : Option InvokeOptions) (k : String)
    (hx : k ≠ "x-region") (hct : k ≠ "Content-Type") (ho : noOverlayOf k opts) :
    ((SyncFunctionsClient.invoke c send fn opts).1).headers k = c.headers k := by
  cases opts with
  | none => rfl
  | some o => exact invokeHeaders_preserves c.headers o k ho hx hct

/-- A whole sequence of `invoke` calls leaves a header key alone when no
call in the sequence overlays it and the key is neither `x-region` nor
`Content-Type`. -/
theorem runCalls_preserves (k : String) (hx : k ≠ "x-region") (hct : k ≠ "Content-Type") :
    ∀ (calls : List ((HttpRequest → Response) × String × Option InvokeOptions))
      (c : FunctionsClient),
      (∀ call ∈ calls, noOverlayOf k call.2.2) →
      (runCalls c calls).headers k = c.headers k := by
  intro calls
  induction calls with
  | nil => intro c _; rfl
  | cons call rest ih =>
    intro c hcalls
    rw [show runCalls c (call :: rest)
        = runCalls (SyncFunctionsClient.invoke c call.1 call.2.1 call.2.2).1 rest from rfl]
    rw [ih _ (fun q hq => hcalls q (List.mem_cons_of_mem call hq))]
    exact invoke_state_preserves c call.1 call.2.1 call.2.2 k hx hct
      (hcalls call (List.mem_cons_self call rest))

/-- Every escaped character occupies at least one character. -/
theorem escapeChar_length (ch : Char) : 1 ≤ (escapeChar ch).length := by
  unfold escapeChar
  repeat' split
  · decide
  · decide
  · decide
  · decide
  · decide
  · exact Nat.le_refl 1

/-- Escaping a character list never shortens it. -/
theorem escapeChars_length (cs : List Char) : cs.length ≤ (escapeChars cs).length := by
  induction cs with
  | nil => simp [escapeChars]
  | cons ch cs ih =>
    calc (ch :: cs).length = 1 + cs.length := by simp [Nat.add_comm]
    _ ≤ (escapeChar ch).length + (escapeChars cs).length :=
        Nat.add_le_add (escapeChar_length ch) ih
    _ = (escapeChar ch ++ escapeChars cs).length := (String.length_append _ _).symm
    _ = (escapeChars (ch :: cs)).length := rfl

/-- The JSON encoding of a string is strictly longer than the string
(the two quotes are added). -/
theorem encodeJsonString_length (s : String) : s.length < (encodeJsonString s).length := by
  unfold encodeJsonString
  rw [String.length_append, String.length_append]
  have h := escapeChars_length s.data
  have hdata : s.data.length = s.length := rfl
  rw [hdata] at h
  have h1 : ("\"" : String).length = 1 := rfl
  omega

/-- The JSON encoding of a string never equals the string itself. -/
theorem encodeJsonString_ne (s : String) : encodeJsonString s ≠ s := by
  intro h
  have hlt := encodeJsonString_length s
  rw [h] at hlt
  exact lt_irrefl _ hlt


/-! ## Claims -/

/-- Claim C1, counterexample: a response with status 500, header
`x-relay-header: true` and body `{"error": "boom"}` makes `invoke` fail
with `FunctionsHttpError("boom")`, not with a `FunctionsRelayError` —
the non-2xx path of `_request` wins before the relay check runs, so the
claimed "regardless of the HTTP status code" is false. -/
theorem C1_counterexample :
    (SyncFunctionsClient.invoke testClient (fun _ => relayResponse500) "fn" none).2
        = Except.error (PyError.functionsHttpError (JValue.jStr "boom"))
    ∧ ∀ m, (SyncFunctionsClient.invoke testClient (fun _ => relayResponse500) "fn" none).2
        ≠ Except.error (PyError.functionsRelayError m) := by
  constructor
  · rfl
  · intro m h
    rw [show (SyncFunctionsClient.invoke testClient (fun _ => relayResponse500) "fn" none).2
        = Except.error (PyError.functionsHttpError (JValue.jStr "boom")) from rfl] at h
    injection h with h2
    exact PyError.noConfusion h2

/-- Claim C1 (amended): for every invoke call whose HTTP response has a
2xx status, carries header `x-relay-header` equal to `"true"`, and whose
body parses as a JSON object, the call fails with a `FunctionsRelayError`
whose message is the `error` field of the JSON response body; on non-2xx
status the non-2xx error path runs first instead. -/
theorem C1_relay_on_success_status
    (c : FunctionsClient) (send : HttpRequest → Response) (fn : String)
    (opts : Option InvokeOptions) (resp : Response) (fields : List (String × JValue))
    (hsend : send (SyncFunctionsClient.buildRequest c fn opts) = resp)
    (h2xx : 200 ≤ resp.status_code ∧ resp.status_code ≤ 299)
    (hrelay : resp.headers "x-relay-header" = some "true")
    (hbody : resp.jsonBody = some (JValue.jObj fields)) :
    (SyncFunctionsClient.invoke c send fn opts).2
      = Except.error (PyError.functionsRelayError (lookupLast "error" fields)) := by
  unfold SyncFunctionsClient.invoke
  simp only [hsend]
  unfold SyncFunctionsClient.handleStatus
  rw [if_pos h2xx]
  simp [hrelay, hbody, pyTruthyStrOpt]

/-- Witness for claim C1: a concrete status-200 response with
`x-relay-header: true` and body `{"error": "bad-relay"}` makes `invoke`
fail with `FunctionsRelayError("bad-relay")`. -/
theorem C1_witness :
    (200 ≤ relayResponse200.status_code ∧ relayResponse200.status_code ≤ 299)
    ∧ relayResponse200.headers "x-relay-header" = some "true"
    ∧ (SyncFunctionsClient.invoke testClient (fun _ => relayResponse200) "fnw" none).2
        = Except.error (PyError.functionsRelayError (some (JValue.jStr "bad-relay"))) := by
  refine ⟨by decide, by decide, ?_⟩
  have h := C1_relay_on_success_status testClient (fun _ => relayResponse200) "fnw" none
    relayResponse200 [("error", JValue.jStr "bad-relay")] rfl (by decide) rfl rfl
  simpa [lookupLast] using h

/-- Claim C2, counterexample: a response with status 500 whose body does
not parse as JSON makes `invoke` propagate the JSON decode exception —
it does not fail with a `FunctionsHttpError` carrying the generic
message, so the claimed "no other outcome occurs on this path" is
false. -/
theorem C2_counterexample :
    (SyncFunctionsClient.invoke testClient (fun _ => badJsonResponse500) "fn2" none).2
        = Except.error PyError.jsonDecodeError
    ∧ ∀ v, (SyncFunctionsClient.invoke testClient (fun _ => badJsonResponse500) "fn2" none).2
        ≠ Except.error (PyError.functionsHttpError v) := by
  constructor
  · rfl
  · intro v h
    rw [show (SyncFunctionsClient.invoke testClient (fun _ => badJsonResponse500) "fn2" none).2
        = Except.error PyError.jsonDecodeError from rfl] at h
    injection h with h2
    exact PyError.noConfusion h2

/-- Claim C2 (amended): for every invoke call whose HTTP response has a
non-2xx status: when the body parses as a JSON object with a truthy
`error` field, the call fails with a `FunctionsHttpError` carrying that
message; when it parses as a JSON object without a truthy `error` field,
with a `FunctionsHttpError` carrying the generic message naming the
request URL; and when parsing fails, the JSON parse exception propagates
to the caller instead. -/
theorem C2_http_error_paths
    (c : FunctionsClient) (send : HttpRequest → Response) (fn : String)
    (opts : Option InvokeOptions) (resp : Response)
    (hsend : send (SyncFunctionsClient.buildRequest c fn opts) = resp)
    (hstatus : ¬(200 ≤ resp.status_code ∧ resp.status_code ≤ 299)) :
    (∀ fields v, resp.jsonBody = some (JValue.jObj fields) →
        lookupLast "error" fields = some v → v.truthy = true →
        (SyncFunctionsClient.invoke c send fn opts).2
          = Except.error (PyError.functionsHttpError v))
    ∧ (∀ fields, resp.jsonBody = some (JValue.jObj fields) →
        (∀ v, lookupLast "error" fields = some v → v.truthy = false) →
        (SyncFunctionsClient.invoke c send fn opts).2
          = Except.error (PyError.functionsHttpError
              (JValue.jStr (genericErrorMessage (c.url ++ "/" ++ fn)))))
    ∧ (resp.jsonBody = none →
        (SyncFunctionsClient.invoke c send fn opts).2
          = Except.error PyError.jsonDecodeError) := by
  refine ⟨?_, ?_, ?_⟩
  · intro fields v hbody hlook htruthy
    unfold SyncFunctionsClient.invoke
    simp only [hsend]
    unfold SyncFunctionsClient.handleStatus
    rw [if_neg hstatus]
    simp [hbody, hlook, htruthy]
  · intro fields hbody hfalsy
    unfold SyncFunctionsClient.invoke
    simp only [hsend]
    unfold SyncFunctionsClient.handleStatus
    rw [if_neg hstatus]
    rcases hl : lookupLast "error" fields with _ | v
    · simp [hbody, hl, SyncFunctionsClient.buildRequest]
    · simp [hbody, hl, hfalsy v hl, SyncFunctionsClient.buildRequest]
  · intro hbody
    unfold SyncFunctionsClient.invoke
    simp only [hsend]
    unfold SyncFunctionsClient.handleStatus
    rw [if_neg hstatus]
    simp [hbody]

/-- Witness for claim C2: a concrete status-500 response with body
`{"error": "boom"}` makes `invoke` fail with
`FunctionsHttpError("boom")`. -/
theorem C2_witness :
    ¬(200 ≤ err500Response.status_code ∧ err500Response.status_code ≤ 299)
    ∧ (SyncFunctionsClient.invoke testClient (fun _ => err500Response) "fn2w" none).2
        = Except.error (PyError.functionsHttpError (JValue.jStr "boom")) := by
  refine ⟨by decide, ?_⟩
  exact (C2_http_error_paths testClient (fun _ => err500Response) "fn2w" none err500Response
      rfl (by decide)).1 [("error", JValue.jStr "boom")] (JValue.jStr "boom") rfl rfl
      (by decide)

/-- Claim C3: an invoke call with options writes the per-call overlay
(overlay headers, `x-region`, `Content-Type`) into the shared header map
itself — the state of the client after the call holds exactly the merged
map, a subsequent invoke call without options sends exactly that map, so
every entry present after the merge is still sent by the later call. -/
theorem C3_shared_header_map (c : FunctionsClient) (send : HttpRequest → Response)
    (fn fn2 : String) (o : InvokeOptions) :
    ((SyncFunctionsClient.invoke c send fn (some o)).1).headers
        = SyncFunctionsClient.invokeHeaders c.headers (some o)
    ∧ (SyncFunctionsClient.buildRequest
          ((SyncFunctionsClient.invoke c send fn (some o)).1) fn2 none).headers
        = SyncFunctionsClient.invokeHeaders c.headers (some o)
    ∧ (∀ k v, SyncFunctionsClient.invokeHeaders c.headers (some o) k = some v →
        (SyncFunctionsClient.buildRequest
            ((SyncFunctionsClient.invoke c send fn (some o)).1) fn2 none).headers k
          = some v) :=
  ⟨rfl, rfl, fun _ _ hk => hk⟩

/-- Witness for claim C3: after an invoke call with a custom header and
region `us-east-1`, a later invoke call on the same client without any
options still sends `X-Custom: 1` and `x-region: us-east-1`. -/
theorem C3_witness :
    (SyncFunctionsClient.buildRequest
        ((SyncFunctionsClient.invoke testClient (fun _ => relayResponse200) "fn3"
            (some c3opts)).1) "fn3b" none).headers "x-region" = some "us-east-1"
    ∧ (SyncFunctionsClient.buildRequest
        ((SyncFunctionsClient.invoke testClient (fun _ => relayResponse200) "fn3"
            (some c3opts)).1) "fn3b" none).headers "X-Custom" = some "1" :=
  ⟨(C3_shared_header_map testClient (fun _ => relayResponse200) "fn3" "fn3b" c3opts).2.2
      "x-region" "us-east-1" rfl,
   (C3_shared_header_map testClient (fun _ => relayResponse200) "fn3" "fn3b" c3opts).2.2
      "X-Custom" "1" rfl⟩

/-- Claim C4: when `options.region` is a non-empty string different from
the literal `"any"`, the request headers carry `x-region` set to the
lowercased, trimmed region value; when the region is absent, `"any"`, or
empty, the region step sets nothing (the headers equal those computed
with no region at all). -/
theorem C4_region_header (c : FunctionsClient) (fn : String) (o : InvokeOptions)
    (s : String) :
    (o.region = some (RegionVal.str s) → s ≠ "" → s ≠ "any" →
      (SyncFunctionsClient.buildRequest c fn (some o)).headers "x-region"
        = some (pyLowerStrip s))
    ∧ ((o.region = none ∨ o.region = some (RegionVal.str "any")
          ∨ o.region = some (RegionVal.str "")) →
      SyncFunctionsClient.invokeHeaders c.headers (some o)
        = SyncFunctionsClient.invokeHeaders c.headers (some { o with region := none })) := by
  constructor
  · intro hr hne hnany
    simp only [SyncFunctionsClient.buildRequest, SyncFunctionsClient.invokeHeaders, hr]
    rw [if_pos ⟨hne, hnany⟩]
    cases hb : o.body <;> simp [Headers.set]
  · intro hcase
    rcases hcase with h | h | h
    · simp only [SyncFunctionsClient.invokeHeaders, h]
    · simp only [SyncFunctionsClient.invokeHeaders, h]
      rw [if_neg (by decide : ¬("any" ≠ "" ∧ "any" ≠ "any"))]
    · simp only [SyncFunctionsClient.invokeHeaders, h]
      rw [if_neg (by decide : ¬("" ≠ "" ∧ ("" : String) ≠ "any"))]

/-- Witness for claim C4: region `"  US-EAST-1  "` yields the request
header `x-region: us-east-1`. -/
theorem C4_witness :
    ("  US-EAST-1  " ≠ "" ∧ "  US-EAST-1  " ≠ "any")
    ∧ (SyncFunctionsClient.buildRequest testClient "fn4"
        (some { region := some (RegionVal.str "  US-EAST-1  ") })).headers "x-region"
        = some "us-east-1" := by
  refine ⟨by decide, ?_⟩
  have h := (C4_region_header testClient "fn4"
      { region := some (RegionVal.str "  US-EAST-1  ") } "  US-EAST-1  ").1
      rfl (by decide) (by decide)
  rw [show pyLowerStrip "  US-EAST-1  " = "us-east-1" from rfl] at h
  exact h

/-- Claim C5: a string body sets `Content-Type: text/plain`, a dict body
sets `Content-Type: application/json`, and with no body the call leaves
the `Content-Type` entry exactly as the per-call overlay left it. -/
theorem C5_content_type (c : FunctionsClient) (fn : String) (o : InvokeOptions) :
    (∀ s, o.body = Body.strBody s →
      (SyncFunctionsClient.buildRequest c fn (some o)).headers "Content-Type"
        = some "text/plain")
    ∧ (∀ fs, o.body = Body.dictBody fs →
      (SyncFunctionsClient.buildRequest c fn (some o)).headers "Content-Type"
        = some "application/json")
    ∧ (o.body = Body.noBody →
      (SyncFunctionsClient.buildRequest c fn (some o)).headers "Content-Type"
        = Headers.updateMany c.headers (o.headers.getD []) "Content-Type") := by
  refine ⟨?_, ?_, ?_⟩
  · intro s hb
    simp only [SyncFunctionsClient.buildRequest, SyncFunctionsClient.invokeHeaders, hb]
    simp [Headers.set]
  · intro fs hb
    simp only [SyncFunctionsClient.buildRequest, SyncFunctionsClient.invokeHeaders, hb]
    simp [Headers.set]
  · intro hb
    simp only [SyncFunctionsClient.buildRequest, SyncFunctionsClient.invokeHeaders, hb]
    rcases hr : o.region with _ | rv
    · simp only [hr]
    · cases rv with
      | str s =>
        simp only [hr]
        split
        · simp [Headers.set]
        · rfl
      | nonStr => simp only [hr]

/-- Witness for claim C5: a string body `"hello"` yields the request
header `Content-Type: text/plain`. -/
theorem C5_witness :
    ({ body := Body.strBody "hello" } : InvokeOptions).body = Body.strBody "hello"
    ∧ (SyncFunctionsClient.buildRequest testClient "fn5"
        (some { body := Body.strBody "hello" })).headers "Content-Type"
      = some "text/plain" :=
  ⟨rfl, (C5_content_type testClient "fn5" { body := Body.strBody "hello" }).1 "hello" rfl⟩

/-- Claim C6: for a call that passes the status and relay-header checks,
`responseType = "json"` returns the decoded JSON body (and a malformed
body propagates the parse failure), while any other response type
returns the raw response bytes unchanged. -/
theorem C6_response_parsing
    (c : FunctionsClient) (send : HttpRequest → Response) (fn : String)
    (opts : Option InvokeOptions) (resp : Response)
    (hsend : send (SyncFunctionsClient.buildRequest c fn opts) = resp)
    (h2xx : 200 ≤ resp.status_code ∧ resp.status_code ≤ 299)
    (hnorelay : resp.headers "x-relay-header" ≠ some "true") :
    (SyncFunctionsClient.invokeResponseType opts = "json" →
      (∀ v, resp.jsonBody = some v →
        (SyncFunctionsClient.invoke c send fn opts).2 = Except.ok (InvokeResult.json v))
      ∧ (resp.jsonBody = none →
        (SyncFunctionsClient.invoke c send fn opts).2
          = Except.error PyError.jsonDecodeError))
    ∧ (SyncFunctionsClient.invokeResponseType opts ≠ "json" →
      (SyncFunctionsClient.invoke c send fn opts).2
        = Except.ok (InvokeResult.raw resp.content)) := by
  have hrelayfalse : ¬(pyTruthyStrOpt (resp.headers "x-relay-header") = true
      ∧ resp.headers "x-relay-header" = some "true") := fun hc => hnorelay hc.2
  constructor
  · intro hjson
    constructor
    · intro v hv
      unfold SyncFunctionsClient.invoke
      simp only [hsend]
      unfold SyncFunctionsClient.handleStatus
      rw [if_pos h2xx]
      simp [hrelayfalse, hjson, hv]
    · intro hv
      unfold SyncFunctionsClient.invoke
      simp only [hsend]
      unfold SyncFunctionsClient.handleStatus
      rw [if_pos h2xx]
      simp [hrelayfalse, hjson, hv]
  · intro hjson
    unfold SyncFunctionsClient.invoke
    simp only [hsend]
    unfold SyncFunctionsClient.handleStatus
    rw [if_pos h2xx]
    simp [hrelayfalse, hjson]

/-- Witness for claim C6: against a 200 response with body `{"ok": true}`
and no relay header, `responseType: "json"` returns the decoded object
and the default response type returns the raw bytes. -/
theorem C6_witness :
    (200 ≤ okJsonResponse.status_code ∧ okJsonResponse.status_code ≤ 299)
    ∧ okJsonResponse.headers "x-relay-header" ≠ some "true"
    ∧ (SyncFunctionsClient.invoke testClient (fun _ => okJsonResponse) "fn6"
        (some { responseType := some "json" })).2
      = Except.ok (InvokeResult.json (JValue.jObj [("ok", JValue.jBool true)]))
    ∧ (SyncFunctionsClient.invoke testClient (fun _ => okJsonResponse) "fn6" none).2
      = Except.ok (InvokeResult.raw "raw-bytes") := by
  refine ⟨by decide, by decide, ?_, ?_⟩
  · exact ((C6_response_parsing testClient (fun _ => okJsonResponse) "fn6"
      (some { responseType := some "json" }) okJsonResponse rfl (by decide) (by decide)).1
      rfl).1 (JValue.jObj [("ok", JValue.jBool true)]) rfl
  · exact (C6_response_parsing testClient (fun _ => okJsonResponse) "fn6"
      none okJsonResponse rfl (by decide) (by decide)).2 (by decide)

/-- Claim C7, counterexample: after `set_auth("abc")`, an invoke call
whose per-call headers overlay `Authorization` sends `Bearer zzz`, not
`Bearer abc` — and because the overlay is written into the shared map,
even a later invoke call with no options still sends `Bearer zzz`.  So
"every subsequent invoke call sends that Authorization header" is false
as stated. -/
theorem C7_counterexample :
    (SyncFunctionsClient.buildRequest (SyncFunctionsClient.set_auth testClient "abc")
        "fn7" (some { headers := some [("Authorization", "Bearer zzz")] })).headers
        "Authorization"
      = some "Bearer zzz"
    ∧ (SyncFunctionsClient.buildRequest
        ((SyncFunctionsClient.invoke (SyncFunctionsClient.set_auth testClient "abc")
            (fun _ => okJsonResponse) "fn7"
            (some { headers := some [("Authorization", "Bearer zzz")] })).1)
        "fn7b" none).headers "Authorization"
      = some "Bearer zzz"
    ∧ ("Bearer zzz" : String) ≠ "Bearer " ++ "abc" :=
  ⟨rfl, rfl, by decide⟩

/-- Claim C7 (amended): `set_auth(t)` sets `Authorization: Bearer {t}`
in the shared header map and changes no other entry; after any sequence
of subsequent invoke calls none of which overlays `Authorization`
itself, the shared map still carries that entry and the next invoke
call — again with any options that do not overlay `Authorization` —
sends it; and a later `set_auth` with a different token overrides it
for subsequent calls. -/
theorem C7_set_auth_behaviour (c : FunctionsClient) (t t2 fn : String)
    (calls : List ((HttpRequest → Response) × String × Option InvokeOptions))
    (hcalls : ∀ call ∈ calls, noOverlayOf "Authorization" call.2.2) :
    (SyncFunctionsClient.set_auth c t).headers "Authorization" = some ("Bearer " ++ t)
    ∧ (∀ k, k ≠ "Authorization" →
        (SyncFunctionsClient.set_auth c t).headers k = c.headers k)
    ∧ (runCalls (SyncFunctionsClient.set_auth c t) calls).headers "Authorization"
        = some ("Bearer " ++ t)
    ∧ (∀ opts : Option InvokeOptions, noOverlayOf "Authorization" opts →
        (SyncFunctionsClient.buildRequest
            (runCalls (SyncFunctionsClient.set_auth c t) calls) fn opts).headers
          "Authorization" = some ("Bearer " ++ t))
    ∧ (SyncFunctionsClient.set_auth
          (runCalls (SyncFunctionsClient.set_auth c t) calls) t2).headers "Authorization"
        = some ("Bearer " ++ t2) := by
  have hauth : (SyncFunctionsClient.set_auth c t).headers "Authorization"
      = some ("Bearer " ++ t) := by
    simp [SyncFunctionsClient.set_auth, Headers.set]
  have hrun : (runCalls (SyncFunctionsClient.set_auth c t) calls).headers "Authorization"
      = some ("Bearer " ++ t) := by
    rw [runCalls_preserves "Authorization" (by decide) (by decide) calls _ hcalls, hauth]
  refine ⟨hauth, ?_, hrun, ?_, ?_⟩
  · intro k hkne
    simp [SyncFunctionsClient.set_auth, Headers.set, hkne]
  · intro opts hopts
    cases opts with
    | none => exact hrun
    | some o =>
      have h := invokeHeaders_preserves
          (runCalls (SyncFunctionsClient.set_auth c t) calls).headers o "Authorization"
          hopts (by decide) (by decide)
      rw [show (SyncFunctionsClient.buildRequest
          (runCalls (SyncFunctionsClient.set_auth c t) calls) fn (some o)).headers
          = SyncFunctionsClient.invokeHeaders
            (runCalls (SyncFunctionsClient.set_auth c t) calls).headers (some o)
          from rfl, h]
      exact hrun
  · simp [SyncFunctionsClient.set_auth, Headers.set]

/-- Witness for claim C7: after `set_auth("abc")` and the concrete
two-call sequence `c7calls` (custom header, region and body in the
first call, no options in the second, no `Authorization` overlay in
either), the client still sends `Bearer abc` on the next call, and a
second `set_auth("def")` overrides the entry. -/
theorem C7_witness :
    (∀ call ∈ c7calls, noOverlayOf "Authorization" call.2.2)
    ∧ (runCalls (SyncFunctionsClient.set_auth testClient "abc") c7calls).headers
        "Authorization" = some ("Bearer " ++ "abc")
    ∧ (SyncFunctionsClient.buildRequest
        (runCalls (SyncFunctionsClient.set_auth testClient "abc") c7calls) "fn7w"
        none).headers "Authorization" = some ("Bearer " ++ "abc")
    ∧ (SyncFunctionsClient.buildRequest
        (runCalls (SyncFunctionsClient.set_auth testClient "abc") c7calls) "fn7w"
        (some { headers := some [("X-Other", "1")] })).headers "Authorization"
        = some ("Bearer " ++ "abc")
    ∧ (SyncFunctionsClient.set_auth
        (runCalls (SyncFunctionsClient.set_auth testClient "abc") c7calls) "def").headers
        "Authorization" = some ("Bearer " ++ "def") := by
  have hcalls : ∀ call ∈ c7calls, noOverlayOf "Authorization" call.2.2 := by
    intro call hcall
    rcases List.mem_cons.mp hcall with h | h2
    · subst h
      show ∀ p ∈ [(("X-Other" : String), ("1" : String))], p.1 ≠ "Authorization"
      decide
    · rcases List.mem_cons.mp h2 with h | h3
      · subst h
        trivial
      · cases h3
  have hover : noOverlayOf "Authorization"
      (some { headers := some [("X-Other", "1")] } : Option InvokeOptions) := by
    show ∀ p ∈ [(("X-Other" : String), ("1" : String))], p.1 ≠ "Authorization"
    decide
  refine ⟨hcalls, ?_, ?_, ?_, ?_⟩
  · exact (C7_set_auth_behaviour testClient "abc" "def" "fn7w" c7calls hcalls).2.2.1
  · exact (C7_set_auth_behaviour testClient "abc" "def" "fn7w" c7calls hcalls).2.2.2.1
      none trivial
  · exact (C7_set_auth_behaviour testClient "abc" "def" "fn7w" c7calls hcalls).2.2.2.1
      (some { headers := some [("X-Other", "1")] }) hover
  · exact (C7_set_auth_behaviour testClient "abc" "def" "fn7w" c7calls hcalls).2.2.2.2

/-- Claim C8: a string body is handed to the transport as the `json=`
argument, so it goes on the wire JSON-encoded — quoted and escaped,
never equal to the raw text — even though the `Content-Type` header says
`text/plain`. -/
theorem C8_string_body_json_encoded (c : FunctionsClient) (fn : String)
    (o : InvokeOptions) (s : String) (hb : o.body = Body.strBody s) :
    (SyncFunctionsClient.buildRequest c fn (some o)).json = some (JValue.jStr s)
    ∧ (SyncFunctionsClient.buildRequest c fn (some o)).wireBody
        = some (encodeJsonString s)
    ∧ (SyncFunctionsClient.buildRequest c fn (some o)).headers "Content-Type"
        = some "text/plain"
    ∧ encodeJsonString s ≠ s := by
  refine ⟨?_, ?_, ?_, encodeJsonString_ne s⟩
  · simp [SyncFunctionsClient.buildRequest, SyncFunctionsClient.invokeBody, hb,
      Body.toJsonArg]
  · simp [HttpRequest.wireBody, SyncFunctionsClient.buildRequest,
      SyncFunctionsClient.invokeBody, hb, Body.toJsonArg, encodeJson]
  · simp only [SyncFunctionsClient.buildRequest, SyncFunctionsClient.invokeHeaders, hb]
    simp [Headers.set]

/-- Witness for claim C8: the string body `"hi"` is sent as the five
wire characters `"hi"` (with quotes), differing from the raw two-byte
text, while `Content-Type` still says `text/plain`. -/
theorem C8_witness :
    ({ body := Body.strBody "hi" } : InvokeOptions).body = Body.strBody "hi"
    ∧ (SyncFunctionsClient.buildRequest testClient "fn8"
        (some { body := Body.strBody "hi" })).json = some (JValue.jStr "hi")
    ∧ (SyncFunctionsClient.buildRequest testClient "fn8"
        (some { body := Body.strBody "hi" })).wireBody = some "\"hi\""
    ∧ (SyncFunctionsClient.buildRequest testClient "fn8"
        (some { body := Body.strBody "hi" })).headers "Content-Type"
        = some "text/plain"
    ∧ ("\"hi\"" : String) ≠ "hi" := by
  have h := C8_string_body_json_encoded testClient "fn8" { body := Body.strBody "hi" }
    "hi" rfl
  have henc : encodeJsonString "hi" = "\"hi\"" := rfl
  refine ⟨rfl, h.1, ?_, h.2.2.1, ?_⟩
  · rw [← henc]; exact h.2.1
  · rw [← henc]; exact h.2.2.2

/-- Claim C9: the truthiness test and the comparison with `"any"` use the
raw region string, before lowercasing and trimming — so `"ANY"` and
`" any "` both set `x-region: any`, and the whitespace-only region `" "`
sets `x-region` to the empty string. -/
theorem C9_raw_region_comparison :
    (SyncFunctionsClient.buildRequest testClient "fn9"
        (some { region := some (RegionVal.str "ANY") })).headers "x-region" = some "any"
    ∧ (SyncFunctionsClient.buildRequest testClient "fn9"
        (some { region := some (RegionVal.str " any ") })).headers "x-region" = some "any"
    ∧ (SyncFunctionsClient.buildRequest testClient "fn9"
        (some { region := some (RegionVal.str " ") })).headers "x-region" = some "" :=
  ⟨rfl, rfl, rfl⟩

/-- Claim C10: construction stores the caller-supplied headers merged
over the fixed `User-Agent` entry (a caller-supplied `User-Agent` wins),
and creates the HTTP connection with that base URL, those headers, the
given TLS-verify flag and timeout, and redirect-following enabled. -/
theorem C10_construct (version url : String) (hs : List (String × String))
    (timeout : Int) (verify : Bool) :
    (∀ k, (SyncFunctionsClient.construct version url hs timeout verify).headers k
        = match lookupLast k hs with
          | some v => some v
          | none => if k = "User-Agent" then some (defaultUserAgent version) else none)
    ∧ (SyncFunctionsClient.construct version url hs timeout verify).client.base_url = url
    ∧ (SyncFunctionsClient.construct version url hs timeout verify).client.headers
        = (SyncFunctionsClient.construct version url hs timeout verify).headers
    ∧ (SyncFunctionsClient.construct version url hs timeout verify).client.verify = verify
    ∧ (SyncFunctionsClient.construct version url hs timeout verify).client.timeout
        = timeout
    ∧ (SyncFunctionsClient.construct version url hs timeout
        verify).client.follow_redirects = true := by
  refine ⟨?_, rfl, rfl, rfl, rfl, rfl⟩
  intro k
  show Headers.updateMany
      (Headers.set Headers.empty "User-Agent" (defaultUserAgent version)) hs k = _
  rw [Headers.updateMany_lookup]
  cases lookupLast k hs with
  | some v => rfl
  | none => simp [Headers.set, Headers.empty]

end SupabaseFunctions
